import Mathlib

/-!
Verification development for the hcls-common helper library: shallow
embeddings of the KeyProtect helper (src/helpers/keyprotect-helper.js),
the AppID helper (src/helpers/app-id-helper.js), the Cloudant helper
(src/helpers/cloudant-helper.js), and of the retry policy those helpers
install on their axios clients via the retry-axios library.

External collaborators that are not part of the repository sources are
modelled as oracles supplied by an environment record: the Credential
Provider (cloud-iam-helper, absent from src/) is, following the spec,
an async call that either yields a token or fails with a propagated
error; remote HTTP endpoints are modelled by success flags and result
values in the same environment record.  Each event in a trace stands
for one logical outbound request (retries of a single request are the
subject of the separate retry-policy model).
-/

deriving instance DecidableEq for Except

namespace Rax

/-- Outcome of one HTTP attempt: `some status` when a response was
received, `none` when no response arrived (network failure/timeout). -/
structure AxiosOutcome where
  response : Option Nat
deriving DecidableEq, Repr

/-- Configuration record of the retry-axios library, as attached by the
helpers to their axios clients (`raxConfig`). -/
structure RaxConfig where
  retry : Nat
  noResponseRetries : Nat
  statusCodesToRetry : List (Nat × Nat)
  httpMethodsToRetry : List String
  backoffType : String
  retryDelay : Nat
deriving DecidableEq, Repr

/-- Modelled from the spec: default values of the retry-axios library
(the source only overrides some fields; the source comments in
app-id-helper.js record that the default backoff type is exponential
and keyprotect-helper.js leaves both `backoffType` and
`httpMethodsToRetry` at their library defaults). -/
def raxDefaults : RaxConfig :=
  { retry := 3
    noResponseRetries := 2
    statusCodesToRetry := [(100, 199), (429, 429), (500, 599)]
    httpMethodsToRetry := ["GET", "HEAD", "OPTIONS", "DELETE", "PUT"]
    backoffType := "exponential"
    retryDelay := 100 }

/-- raxConfig installed by `keyProtectClient` (keyprotect-helper.js
lines 56-68): `retry` and `noResponseRetries` both set to the
configured retry count, retry only on 5xx, configured delay; backoff
type and retryable methods left at the library defaults. -/
def keyProtectRax (retries retryDelay : Nat) : RaxConfig :=
  { raxDefaults with
      retry := retries
      noResponseRetries := retries
      statusCodesToRetry := [(500, 599)]
      retryDelay := retryDelay }

/-- raxConfig installed by `appIdLoginClient` and `appIdMgmtClient`
(app-id-helper.js lines 91-105 and 158-172): retries = 1, static
backoff, 3000 ms delay, retry only on 5xx, POST/GET/HEAD/PUT
retryable. -/
def appIdRax : RaxConfig :=
  { raxDefaults with
      retry := 1
      noResponseRetries := 1
      statusCodesToRetry := [(500, 599)]
      httpMethodsToRetry := ["POST", "GET", "HEAD", "PUT"]
      backoffType := "static"
      retryDelay := 3000 }

/-- Does a received status fall in one of the configured retryable
status ranges. -/
def inStatusRanges (ranges : List (Nat × Nat)) (s : Nat) : Bool :=
  ranges.any (fun p => p.1 ≤ s && s ≤ p.2)

/-- Modelled from the spec: the retry predicate of the retry-axios
library (spec section 4.1): a request is retried only when its method
is retryable and either a response with a retryable status was
received (bounded by `retry`) or no response was received (bounded by
`noResponseRetries` and `retry`).  `attempt` is the number of retries
already performed. -/
def shouldRetry (cfg : RaxConfig) (method : String) (out : AxiosOutcome)
    (attempt : Nat) : Bool :=
  if !(cfg.httpMethodsToRetry.contains method) then false
  else
    match out.response with
    | some s => inStatusRanges cfg.statusCodesToRetry s && decide (attempt < cfg.retry)
    | none => decide (attempt < cfg.noResponseRetries) && decide (attempt < cfg.retry)

/-- Total number of attempts against an endpoint that always produces
outcome `out`, counted with explicit fuel (the fuel in `attemptsFor`
strictly exceeds every retry bound, so it is never exhausted). -/
def attemptsGo (cfg : RaxConfig) (method : String) (out : AxiosOutcome) :
    Nat → Nat → Nat
  | 0, _ => 1
  | fuel + 1, attempt =>
    if shouldRetry cfg method out attempt then
      1 + attemptsGo cfg method out fuel (attempt + 1)
    else 1

/-- Total number of attempts the configured client makes against an
endpoint that always produces outcome `out`. -/
def attemptsFor (cfg : RaxConfig) (method : String) (out : AxiosOutcome) : Nat :=
  attemptsGo cfg method out (cfg.retry + cfg.noResponseRetries + 1) 0

/-- Modelled from the spec: delay before retry number `attempt`
(spec section 4.1 backoff policy): static backoff waits the configured
`retryDelay`, linear waits `attempt` seconds, and the default
exponential backoff waits `((2 ^ attempt - 1) / 2)` seconds. -/
def retryDelayFor (cfg : RaxConfig) (attempt : Nat) : Nat :=
  if cfg.backoffType = "static" then cfg.retryDelay
  else if cfg.backoffType = "linear" then attempt * 1000
  else (2 ^ attempt - 1) * 1000 / 2

end Rax

namespace KeyProtect

/-- One key record as listed by the key-management service: id, name,
creation timestamp (milliseconds since epoch, the value the source
feeds to `moment`), and the stored (already base64-encoded) payload. -/
structure KeyRecord where
  id : String
  name : String
  creationDate : Nat
  payload : String
deriving DecidableEq, Repr

/-- The module-level `keyProtectObj` configuration set via `setConfig`.
Missing string fields are modelled by `""` and missing numeric fields
by `0` (both are falsy in the source's `!field` checks). -/
structure KeyProtectConfig where
  url : String
  instanceID : String
  apikey : String
  retries : Nat
  retryDelay : Nat
  timeout : Nat
deriving DecidableEq, Repr

/-- validateConfig (keyprotect-helper.js lines 24-43): returns the
environment-variable name of the first missing field, in the source's
check order, or `none` when the config is complete. -/
def validateConfig (c : KeyProtectConfig) : Option String :=
  if c.url = "" then some "KEYPROTECT_URL"
  else if c.instanceID = "" then some "KEYPROTECT_GUID"
  else if c.apikey = "" then some "KEYPROTECT_APIKEY"
  else if c.retries = 0 then some "KEYPROTECT_RETRIES"
  else if c.retryDelay = 0 then some "KEYPROTECT_RETRYDELAY"
  else if c.timeout = 0 then some "KEYPROTECT_TIMEOUT"
  else none

/-- Errors thrown by the KeyProtect helper.  `wrapped op e` models the
catch blocks that rethrow `new Error` with a message embedding the
inner failure reason. -/
inductive KPError where
  | configMissing (field : String)
  | tokenFailure (msg : String)
  | remote (msg : String)
  | emptyKeyName
  | emptyKeyPayload
  | wrapped (op : String) (inner : KPError)
deriving DecidableEq, Repr

/-- One logical outbound call made by the KeyProtect helper.
`iamToken` is the Credential Provider call
(`cloudIamHelper.getCloudIAMToken`); the others are KeyProtect service
requests. -/
inductive KPEvent where
  | iamToken
  | listKeys
  | getKey (kid : String)
  | deleteKey (kid : String)
  | createKey (name : String) (encodedPayload : String)
deriving DecidableEq, Repr

/-- Environment oracle for one helper invocation.  `tokenResult` is
modelled from the spec: the Credential Provider collaborator
(cloud-iam-helper.js is not among the sources) either supplies a token
or fails with an error that the caller receives as-is.  The Ok flags
state whether the corresponding remote request succeeds; `getPayload`
is the value `parseKeyPayload` produces from a successful get-key
response (that parser never throws: it has its own try/catch);
`createdId` and `createdDate` are the id and timestamp the service
assigns to a newly created key. -/
structure KPEnv where
  tokenResult : Except String Unit
  listOk : Bool
  getOk : Bool
  deleteOk : Bool
  createOk : Bool
  getPayload : String
  createdId : String
  createdDate : Nat
deriving Repr

/-- UTF-8 encoding of one character, as byte values. -/
def utf8EncodeCharNat (c : Char) : List Nat :=
  let n := c.toNat
  if n < 128 then [n]
  else if n < 2048 then [192 + n / 64, 128 + n % 64]
  else if n < 65536 then [224 + n / 4096, 128 + n / 64 % 64, 128 + n % 64]
  else [240 + n / 262144, 128 + n / 4096 % 64, 128 + n / 64 % 64, 128 + n % 64]

/-- UTF-8 bytes of a string (what `Buffer.from(str)` yields). -/
def utf8Bytes (s : String) : List Nat :=
  s.data.foldr (fun c acc => utf8EncodeCharNat c ++ acc) []

/-- The base64 alphabet. -/
def base64Alphabet : String :=
  "ABCDEFGHIJKLMNOPQRSTUVWXYZabcdefghijklmnopqrstuvwxyz0123456789+/"

/-- Character of the base64 alphabet at a 6-bit index. -/
def base64Char (n : Nat) : Char :=
  base64Alphabet.toList.getD n 'A'

/-- Standard base64 chunking with `=` padding (what
`Buffer.toString(base64)` yields). -/
def base64Chunks : List Nat → List Char
  | [] => []
  | [b1] =>
    let n := b1 * 65536
    [base64Char (n / 262144), base64Char (n / 4096 % 64), '=', '=']
  | [b1, b2] =>
    let n := b1 * 65536 + b2 * 256
    [base64Char (n / 262144), base64Char (n / 4096 % 64), base64Char (n / 64 % 64), '=']
  | b1 :: b2 :: b3 :: rest =>
    let n := b1 * 65536 + b2 * 256 + b3
    base64Char (n / 262144) :: base64Char (n / 4096 % 64) :: base64Char (n / 64 % 64)
      :: base64Char (n % 64) :: base64Chunks rest

/-- Base64 encoding of a byte list. -/
def base64Encode (bytes : List Nat) : String :=
  String.mk (base64Chunks bytes)

/-- getAllKeysHelper (lines 74-95): validates the config and issues the
list request, returning the listed resources; every failure is caught
and degraded to an empty list.  `store` is the remote service's
current key list. -/
def getAllKeysHelper (cfg : KeyProtectConfig) (env : KPEnv)
    (store : List KeyRecord) : Except KPError (List KeyRecord) × List KPEvent :=
  match validateConfig cfg with
  | some _ => (.ok [], [])
  | none =>
    if env.listOk then (.ok store, [.listKeys])
    else (.ok [], [.listKeys])

/-- getAllKeys (lines 97-105): with a client it delegates directly;
without one it first acquires an IAM token (outside any try/catch, so
a token failure propagates) and then delegates. -/
def getAllKeys (cfg : KeyProtectConfig) (env : KPEnv) (store : List KeyRecord)
    (hasClient : Bool) : Except KPError (List KeyRecord) × List KPEvent :=
  if hasClient then getAllKeysHelper cfg env store
  else
    match env.tokenResult with
    | .error m => (.error (.tokenFailure m), [.iamToken])
    | .ok _ =>
      let r := getAllKeysHelper cfg env store
      (r.1, .iamToken :: r.2)

/-- getKeysByName (lines 107-130): validates, lists all keys, filters
by name; every failure is caught and degraded to an empty list. -/
def getKeysByName (cfg : KeyProtectConfig) (env : KPEnv) (store : List KeyRecord)
    (hasClient : Bool) (keyName : String) :
    Except KPError (List KeyRecord) × List KPEvent :=
  match validateConfig cfg with
  | some _ => (.ok [], [])
  | none =>
    let r := getAllKeys cfg env store hasClient
    match r.1 with
    | .error _ => (.ok [], r.2)
    | .ok keys => (.ok (keys.filter (fun k => k.name == keyName)), r.2)

/-- deleteKey (lines 132-153): validates, acquires a token, issues the
delete; any failure is rethrown wrapped.  On success the record with
the given id is removed from the remote store. -/
def deleteKeyRun (cfg : KeyProtectConfig) (env : KPEnv) (store : List KeyRecord)
    (keyID : String) : Except KPError Unit × List KPEvent × List KeyRecord :=
  match validateConfig cfg with
  | some f => (.error (.wrapped "deleteKey" (.configMissing f)), [], store)
  | none =>
    match env.tokenResult with
    | .error m => (.error (.wrapped "deleteKey" (.tokenFailure m)), [.iamToken], store)
    | .ok _ =>
      if env.deleteOk then
        (.ok (), [.iamToken, .deleteKey keyID],
          store.filter (fun k => !(k.id == keyID)))
      else
        (.error (.wrapped "deleteKey" (.remote "delete failed")),
          [.iamToken, .deleteKey keyID], store)

/-- The scan loop of getNewestKeyIDByName (lines 161-178): walks the
fetched list tracking the newest creation date seen so far; on finding
a strictly newer matching record it deletes the previously tracked
record (when one exists) and tracks the new one.  A failing delete
propagates (the loop has no try/catch).  The fetched list is fixed;
deletions only change the remote store. -/
def scanLoop (cfg : KeyProtectConfig) (env : KPEnv) (searchName : String) :
    List KeyRecord → String → Nat → List KeyRecord →
    Except KPError String × List KPEvent × List KeyRecord
  | [], newestKeyID, _, store => (.ok newestKeyID, [], store)
  | k :: rest, newestKeyID, newestDate, store =>
    if k.name = searchName ∧ newestDate < k.creationDate then
      if newestKeyID = "" then
        scanLoop cfg env searchName rest k.id k.creationDate store
      else
        match deleteKeyRun cfg env store newestKeyID with
        | (.error e, tr, store1) => (.error e, tr, store1)
        | (.ok _, tr, store1) =>
          let r := scanLoop cfg env searchName rest k.id k.creationDate store1
          (r.1, tr ++ r.2.1, r.2.2)
    else
      scanLoop cfg env searchName rest newestKeyID newestDate store

/-- getNewestKeyIDByName (lines 155-180): fetches the records with the
given name and runs the scan starting from the empty id and epoch 0. -/
def getNewestKeyIDByName (cfg : KeyProtectConfig) (env : KPEnv)
    (store : List KeyRecord) (hasClient : Bool) (searchName : String) :
    Except KPError String × List KPEvent × List KeyRecord :=
  let r := getKeysByName cfg env store hasClient searchName
  match r.1 with
  | .error e => (.error e, r.2, store)
  | .ok keyList =>
    let s := scanLoop cfg env searchName keyList "" 0 store
    (s.1, r.2 ++ s.2.1, s.2.2)

/-- getKeyByID (lines 222-244): validates, acquires a token, issues the
get, parses the payload; every failure is caught and degraded to the
empty string. -/
def getKeyByIDRun (cfg : KeyProtectConfig) (env : KPEnv) (keyID : String) :
    Except KPError String × List KPEvent :=
  match validateConfig cfg with
  | some _ => (.ok "", [])
  | none =>
    match env.tokenResult with
    | .error _ => (.ok "", [.iamToken])
    | .ok _ =>
      if env.getOk then (.ok env.getPayload, [.iamToken, .getKey keyID])
      else (.ok "", [.iamToken, .getKey keyID])

/-- getNewestKeyByName (lines 246-275): validates, acquires a token,
finds the newest key id (deleting stale duplicates along the way),
then gets and parses that key; every failure is caught and degraded to
the empty string (deletions already applied persist). -/
def getNewestKeyByNameRun (cfg : KeyProtectConfig) (env : KPEnv)
    (store : List KeyRecord) (keyName : String) :
    Except KPError String × List KPEvent × List KeyRecord :=
  match validateConfig cfg with
  | some _ => (.ok "", [], store)
  | none =>
    match env.tokenResult with
    | .error _ => (.ok "", [.iamToken], store)
    | .ok _ =>
      match getNewestKeyIDByName cfg env store true keyName with
      | (.error _, tr, store1) => (.ok "", .iamToken :: tr, store1)
      | (.ok kid, tr, store1) =>
        if kid = "" then (.ok "", .iamToken :: tr, store1)
        else if env.getOk then
          (.ok env.getPayload, .iamToken :: (tr ++ [.getKey kid]), store1)
        else (.ok "", .iamToken :: (tr ++ [.getKey kid]), store1)

/-- createKey (lines 277-332): validates, rejects empty name/payload,
acquires a token, finds and deletes the newest existing key with the
name (the scan having deleted superseded duplicates), base64-encodes
the serialized payload (`keyPayload` here is the serialized JSON
string `JSON.stringify` produces) and posts the create request; any
failure is rethrown wrapped.  On success the service's new record is
appended to the store and its id returned. -/
def createKeyRun (cfg : KeyProtectConfig) (env : KPEnv) (store : List KeyRecord)
    (keyName keyPayload : String) :
    Except KPError String × List KPEvent × List KeyRecord :=
  match validateConfig cfg with
  | some f => (.error (.wrapped "createKey" (.configMissing f)), [], store)
  | none =>
    if keyName = "" then (.error (.wrapped "createKey" .emptyKeyName), [], store)
    else if keyPayload = "" then
      (.error (.wrapped "createKey" .emptyKeyPayload), [], store)
    else
      match env.tokenResult with
      | .error m => (.error (.wrapped "createKey" (.tokenFailure m)), [.iamToken], store)
      | .ok _ =>
        match getNewestKeyIDByName cfg env store true keyName with
        | (.error e, tr, store1) =>
          (.error (.wrapped "createKey" e), .iamToken :: tr, store1)
        | (.ok existingKeyID, tr, store1) =>
          let afterDelete : Except KPError Unit × List KPEvent × List KeyRecord :=
            if existingKeyID = "" then (.ok (), [], store1)
            else deleteKeyRun cfg env store1 existingKeyID
          match afterDelete with
          | (.error e, tr2, store2) =>
            (.error (.wrapped "createKey" e), .iamToken :: (tr ++ tr2), store2)
          | (.ok _, tr2, store2) =>
            let encodedPayload := base64Encode (utf8Bytes keyPayload)
            if env.createOk then
              (.ok env.createdId,
                .iamToken :: (tr ++ tr2 ++ [.createKey keyName encodedPayload]),
                store2 ++ [⟨env.createdId, keyName, env.createdDate, encodedPayload⟩])
            else
              (.error (.wrapped "createKey" (.remote "create failed")),
                .iamToken :: (tr ++ tr2 ++ [.createKey keyName encodedPayload]), store2)

/-- The id of the record the scan ends up tracking (the running-maximum
id after processing the whole list), for lists where every record is
strictly newer than its predecessors. -/
def lastId : String → List KeyRecord → String
  | cur, [] => cur
  | _, k :: rest => lastId k.id rest

/-- The ids the scan deletes (every superseded running maximum), for
lists where every record is strictly newer than its predecessors. -/
def deadIds : String → List KeyRecord → List String
  | _, [] => []
  | cur, k :: rest => (if cur = "" then [] else [cur]) ++ deadIds k.id rest

end KeyProtect

namespace AppID

/-- The module-level `appIDObj` configuration set via `setConfig`.
Missing string fields are modelled by `""`. -/
structure AppIDConfig where
  url : String
  clientID : String
  tenantID : String
  secret : String
  apikey : String
  userName : String
  userTenantID : String
deriving DecidableEq, Repr

/-- validateConfig (app-id-helper.js lines 34-49): returns the
environment-variable name of the first missing field, in the source's
check order, or `none` when the config is complete. -/
def validateAppIDConfig (c : AppIDConfig) : Option String :=
  if c.url = "" then some "APP_ID_URL"
  else if c.clientID = "" then some "APP_ID_CLIENT_ID"
  else if c.tenantID = "" then some "APP_ID_TENANT_ID"
  else if c.secret = "" then some "APP_ID_SECRET"
  else none

/-- Errors surfaced by the AppID helper. -/
inductive AppIdErr where
  | configMissing (field : String)
  | loginFailed (username : String)
  | tokenFailed
  | remote (msg : String)
  | userIdNotFound
deriving DecidableEq, Repr

/-- One logical outbound call made by the AppID helper.  `iamToken` is
the Credential Provider call used by `appIdMgmtClient`; the others are
AppID service requests (`login` the oauth token endpoint, `getRoles`
GET /roles, `createUser` POST /cloud_directory/Users, `getUsers`
GET /users, `putRoles` PUT /users/id/roles, `putAttributes`
PUT /users/id/profile). -/
inductive AppIdEvent where
  | login (username password : String)
  | iamToken
  | getRoles
  | createUser (username : String)
  | getUsers
  | putRoles (userId : String)
  | putAttributes (userId : String)
deriving DecidableEq, Repr

/-- Environment oracle for one `existUserCheck` invocation.
`firstLoginOk` is the outcome of the initial login attempt,
`secondLoginOk` the outcome of the verification login issued after the
account is created (the remote directory's state changes in between,
so the two logins are separate oracles).  `tokenOk` is modelled from
the spec: the Credential Provider collaborator (cloud-iam-helper.js is
not among the sources) either supplies the management token or fails.
`usersResult` lists (email, id) pairs as returned by GET /users. -/
structure AppIdEnv where
  firstLoginOk : Bool
  secondLoginOk : Bool
  tokenOk : Bool
  rolesResult : Except String (List String)
  createOk : Bool
  usersResult : Except String (List (String × String))
  putRolesOk : Bool
  putAttrsOk : Bool
deriving Repr

/-- loginAppID (lines 111-142): validates the config (failing before
any request) and posts the password-grant login; the token payload
itself is not consumed by existUserCheck, so a successful login is
modelled as `.ok ()`. -/
def loginAppIDRun (cfg : AppIDConfig) (ok : Bool) (username password : String) :
    Except AppIdErr Unit × List AppIdEvent :=
  match validateAppIDConfig cfg with
  | some f => (.error (.configMissing f), [])
  | none =>
    if ok then (.ok (), [.login username password])
    else (.error (.loginFailed username), [.login username password])

/-- existUserCheckFunc (lines 259-294): attempt login; on success this
is a no-op.  On login failure, provision: acquire the management
client (config validation plus IAM token), fetch all role ids, create
the account, log in as the new user and look its id up in the user
list, update its roles, then its attributes.  Any failure in the
provisioning steps is returned (`some e`) and aborts the remaining
steps; mutations already applied are not rolled back. -/
def existUserCheckFunc (cfg : AppIDConfig) (env : AppIdEnv)
    (username password : String) : Option AppIdErr × List AppIdEvent :=
  let first := loginAppIDRun cfg env.firstLoginOk username password
  match first.1 with
  | .ok _ => (none, first.2)
  | .error _ =>
    match validateAppIDConfig cfg with
    | some f => (some (.configMissing f), first.2)
    | none =>
      if !env.tokenOk then (some .tokenFailed, first.2 ++ [.iamToken])
      else
        match env.rolesResult with
        | .error m => (some (.remote m), first.2 ++ [.iamToken, .getRoles])
        | .ok _roles =>
          let t2 := first.2 ++ [.iamToken, .getRoles]
          if !env.createOk then (some (.remote "create failed"), t2 ++ [.createUser username])
          else
            let t3 := t2 ++ [.createUser username]
            let second := loginAppIDRun cfg env.secondLoginOk username password
            match second.1 with
            | .error e => (some e, t3 ++ second.2)
            | .ok _ =>
              match env.usersResult with
              | .error m => (some (.remote m), t3 ++ second.2 ++ [.getUsers])
              | .ok users =>
                match users.find? (fun q => q.1 == username) with
                | none => (some .userIdNotFound, t3 ++ second.2 ++ [.getUsers])
                | some q =>
                  let t5 := t3 ++ second.2 ++ [.getUsers]
                  if !env.putRolesOk then
                    (some (.remote "roles update failed"), t5 ++ [.putRoles q.2])
                  else if !env.putAttrsOk then
                    (some (.remote "attributes update failed"),
                      t5 ++ [.putRoles q.2, .putAttributes q.2])
                  else (none, t5 ++ [.putRoles q.2, .putAttributes q.2])

end AppID

namespace Cloudant

/-- The `connection` part of the Cloudant configuration.  Missing
string fields are modelled by `""`. -/
structure CloudantConnection where
  url : String
  account : String
  iamApiKey : String
  username : String
  password : String
  proxyUrl : String
deriving DecidableEq, Repr

/-- initCloudant (cloudant-helper.js lines 20-66): without a connection
config it throws; with `account` and `iamApiKey` it builds an IAM
authenticated service; otherwise with `url`, `username` and `password`
it builds a legacy authenticated service; otherwise it throws. -/
def initCloudant (conn : Option CloudantConnection) : Except String Unit :=
  match conn with
  | none => .error "Missing DB connection configuration"
  | some c =>
    if c.account ≠ "" ∧ c.iamApiKey ≠ "" then .ok ()
    else if c.url ≠ "" ∧ c.username ≠ "" ∧ c.password ≠ "" then .ok ()
    else .error "Missing DB credentials"

/-- Module state of cloudant-helper.js: the `instance` variable
(modelled as an allocation reference so that object identity is
expressible) and whether `instance.cloudant` has been set by a
successful `setupCloudant`.  `nextRef` is the next fresh reference. -/
structure CloudantState where
  nextRef : Nat
  instanceRef : Option Nat
  cloudantInit : Bool
deriving DecidableEq, Repr

/-- The object thrown by getInstance when the instance exists but its
cloudant connection was never initialized. -/
structure CloudantThrow where
  status : Nat
  message : String
deriving DecidableEq, Repr

/-- The message of the getInstance trapdoor throw. -/
def cloudantNotInitMsg : String :=
  "Cloudant was not initialized during startup, please check configuration"

/-- CloudantHelperLib.getInstance (lines 70-81): allocates the instance
when none exists and returns it; when an instance exists but its
cloudant connection is unset it throws a status-500 object; otherwise
it returns the existing instance.  (It also reassigns the module-level
config object, which this state does not track.) -/
def getInstance (s : CloudantState) : Except CloudantThrow (Nat × CloudantState) :=
  match s.instanceRef with
  | none =>
    .ok (s.nextRef, { s with instanceRef := some s.nextRef, nextRef := s.nextRef + 1 })
  | some r =>
    if s.cloudantInit then .ok (r, s)
    else .error { status := 500, message := cloudantNotInitMsg }

/-- setupCloudant (lines 83-92): when the cloudant connection is unset,
initialize it, rethrowing an init failure; otherwise do nothing. -/
def setupCloudant (s : CloudantState) (conn : Option CloudantConnection) :
    Except String CloudantState :=
  if s.cloudantInit then .ok s
  else
    match initCloudant conn with
    | .ok _ => .ok { s with cloudantInit := true }
    | .error e => .error e

/-- pingCloudant (lines 94-103): issue a session-information request;
return true on success and false on any failure (never raising). -/
def pingCloudantRun (sessionResult : Except String Unit) : Except CloudantThrow Bool :=
  match sessionResult with
  | .ok _ => .ok true
  | .error _ => .ok false

/-- One call against the cloudant-helper module state. -/
inductive CloudantOp where
  | getInst
  | setup (conn : Option CloudantConnection)

/-- Run one operation: the resulting state and, for a `getInstance`
call that returned, the reference it returned. -/
def runOp (s : CloudantState) : CloudantOp → CloudantState × Option Nat
  | .getInst =>
    match getInstance s with
    | .ok (r, s1) => (s1, some r)
    | .error _ => (s, none)
  | .setup conn =>
    match setupCloudant s conn with
    | .ok s1 => (s1, none)
    | .error _ => (s, none)

/-- Run a sequence of operations, collecting every reference returned
by the getInstance calls that returned. -/
def runOps : CloudantState → List CloudantOp → CloudantState × List Nat
  | s, [] => (s, [])
  | s, op :: ops =>
    let r1 := runOp s op
    let r2 := runOps r1.1 ops
    (r2.1, (match r1.2 with | some r => [r] | none => []) ++ r2.2)

/-- The module's initial state: no instance, nothing initialized. -/
def initialCloudantState : CloudantState :=
  { nextRef := 0, instanceRef := none, cloudantInit := false }

end Cloudant

namespace Rax

/-- When the retry predicate is a pure threshold on the attempt number,
the attempt count is one more than the threshold (given enough fuel). -/
lemma attemptsGo_of_threshold (cfg : RaxConfig) (m : String) (out : AxiosOutcome)
    (t : Nat) (h : ∀ k, shouldRetry cfg m out k = decide (k < t)) :
    ∀ (fuel a : Nat), t ≤ a + fuel → attemptsGo cfg m out fuel a = 1 + (t - a) := by
  intro fuel
  induction fuel with
  | zero =>
    intro a ha
    have : t - a = 0 := by omega
    simp [attemptsGo, this]
  | succ n ih =>
    intro a ha
    rw [attemptsGo, h a]
    by_cases hlt : a < t
    · rw [if_pos (by simpa using hlt), ih (a + 1) (by omega)]
      omega
    · rw [if_neg (by simpa using hlt)]
      omega

/-- For a 5xx-only retry configuration, the predicate on a received
status is a threshold at `retry` when the method is retryable and the
status lies in 500-599. -/
lemma shouldRetry_threshold_5xx (cfg : RaxConfig) (m : String) (s : Nat)
    (hranges : cfg.statusCodesToRetry = [(500, 599)])
    (hm : cfg.httpMethodsToRetry.contains m = true)
    (h5 : 500 ≤ s) (h5b : s ≤ 599) :
    ∀ k, shouldRetry cfg m ⟨some s⟩ k = decide (k < cfg.retry) := by
  intro k
  have h1 : inStatusRanges cfg.statusCodesToRetry s = true := by
    simp [inStatusRanges, hranges]
    omega
  rw [shouldRetry, hm]
  simp [h1]

/-- For a 5xx-only retry configuration, a non-retryable method or a
status outside 500-599 is never retried. -/
lemma shouldRetry_false (cfg : RaxConfig) (m : String) (s : Nat)
    (hranges : cfg.statusCodesToRetry = [(500, 599)])
    (hout : cfg.httpMethodsToRetry.contains m = false ∨ s < 500 ∨ 599 < s) :
    ∀ k, shouldRetry cfg m ⟨some s⟩ k = decide (k < 0) := by
  intro k
  have hd : decide (k < 0) = false := by simp
  rw [hd]
  by_cases hm : cfg.httpMethodsToRetry.contains m
  · rw [shouldRetry, hm]
    have h1 : inStatusRanges cfg.statusCodesToRetry s = false := by
      rcases hout with h | h | h
      · rw [hm] at h; cases h
      · simp [inStatusRanges, hranges]
        omega
      · simp [inStatusRanges, hranges]
        omega
    simp [h1]
  · rw [shouldRetry, eq_false_of_ne_true hm]
    simp

end Rax

/-- C3: for the retry configurations that the KeyProtect and AppID
helpers install on their clients, a retry is attempted only when no
response was received or the received status lies in 500-599; any 4xx
response yields exactly one attempt. -/
theorem retry_only_on_no_response_or_5xx (r d : Nat) (cfg : Rax.RaxConfig)
    (hcfg : cfg = Rax.keyProtectRax r d ∨ cfg = Rax.appIdRax) :
    (∀ (m : String) (out : Rax.AxiosOutcome) (k : Nat),
        Rax.shouldRetry cfg m out k = true →
        out.response = none ∨ ∃ s, out.response = some s ∧ 500 ≤ s ∧ s ≤ 599) ∧
    (∀ (m : String) (s : Nat), 400 ≤ s → s ≤ 499 →
        Rax.attemptsFor cfg m ⟨some s⟩ = 1) := by
  have hranges : cfg.statusCodesToRetry = [(500, 599)] := by
    rcases hcfg with h | h <;> subst h <;> rfl
  constructor
  · intro m out k hret
    rcases houtr : out.response with _ | s
    · exact Or.inl rfl
    · right
      refine ⟨s, rfl, ?_⟩
      rw [Rax.shouldRetry, houtr] at hret
      by_cases hm : cfg.httpMethodsToRetry.contains m
      · rw [hm, hranges] at hret
        simp [Rax.inStatusRanges] at hret
        omega
      · rw [eq_false_of_ne_true hm] at hret
        simp at hret
  · intro m s h4 h4b
    have hfalse := Rax.shouldRetry_false cfg m s hranges (by omega)
    rw [Rax.attemptsFor, Rax.attemptsGo_of_threshold cfg m ⟨some s⟩ 0 hfalse _ 0 (by omega)]

/-- Witness for C3: a 404 against the KeyProtect client configuration
yields exactly one attempt. -/
theorem retry_only_on_no_response_or_5xx_witness :
    Rax.attemptsFor (Rax.keyProtectRax 2 100) "GET" ⟨some 404⟩ = 1 :=
  (retry_only_on_no_response_or_5xx 2 100 (Rax.keyProtectRax 2 100)
    (Or.inl rfl)).2 "GET" 404 (by decide) (by decide)

/-- Counterexample for C4: the KeyProtect client leaves the retryable
methods and the backoff type at the library defaults, so a POST
endpoint that always answers 503 gets exactly one attempt (not
maxRetries + 1), and the delay before the first retry is the
exponential 500 ms, not the configured retryDelay of 100 ms. -/
theorem retry_bound_counterexample :
    Rax.attemptsFor (Rax.keyProtectRax 2 100) "POST" ⟨some 503⟩ = 1 ∧
    Rax.attemptsFor (Rax.keyProtectRax 2 100) "POST" ⟨some 503⟩ ≠ 2 + 1 ∧
    Rax.retryDelayFor (Rax.keyProtectRax 2 100) 1 = 500 ∧
    Rax.retryDelayFor (Rax.keyProtectRax 2 100) 1 ≠ 100 := by
  refine ⟨by decide, by decide, by decide, by decide⟩

/-- C4 (amended): against an endpoint that always fails with a 5xx
response, the AppID clients make exactly retries + 1 = 2 attempts for
their retryable methods (POST/GET/HEAD/PUT) with a fixed static delay
of 3000 ms; the KeyProtect client makes exactly retries + 1 attempts
only for the library's default retryable methods
(GET/HEAD/OPTIONS/DELETE/PUT), with the library's default exponential
backoff rather than a fixed retryDelay; a KeyProtect POST request is
never retried (exactly one attempt). -/
theorem retry_bound_per_client (r d s : Nat) (m : String)
    (h5 : 500 ≤ s) (h5b : s ≤ 599) :
    ((["POST", "GET", "HEAD", "PUT"] : List String).contains m = true →
      Rax.attemptsFor Rax.appIdRax m ⟨some s⟩ = 1 + 1) ∧
    (∀ k, Rax.retryDelayFor Rax.appIdRax k = 3000) ∧
    ((["GET", "HEAD", "OPTIONS", "DELETE", "PUT"] : List String).contains m = true →
      Rax.attemptsFor (Rax.keyProtectRax r d) m ⟨some s⟩ = r + 1) ∧
    (∀ k, Rax.retryDelayFor (Rax.keyProtectRax r d) k = (2 ^ k - 1) * 1000 / 2) ∧
    Rax.attemptsFor (Rax.keyProtectRax r d) "POST" ⟨some s⟩ = 1 := by
  have hr : (Rax.keyProtectRax r d).retry = r := rfl
  have hn : (Rax.keyProtectRax r d).noResponseRetries = r := rfl
  refine ⟨?_, ?_, ?_, ?_, ?_⟩
  · intro hm
    have hth := Rax.shouldRetry_threshold_5xx Rax.appIdRax m s rfl hm h5 h5b
    rw [Rax.attemptsFor, Rax.attemptsGo_of_threshold _ _ _ _ hth _ 0 (by decide)]
    decide
  · intro k
    rfl
  · intro hm
    have hth := Rax.shouldRetry_threshold_5xx (Rax.keyProtectRax r d) m s rfl hm h5 h5b
    rw [Rax.attemptsFor, Rax.attemptsGo_of_threshold _ _ _ _ hth _ 0 (by rw [hr, hn]; omega)]
    rw [hr]
    omega
  · intro k
    rfl
  · have hml : (Rax.keyProtectRax r d).httpMethodsToRetry
        = ["GET", "HEAD", "OPTIONS", "DELETE", "PUT"] := rfl
    have hpost : (Rax.keyProtectRax r d).httpMethodsToRetry.contains "POST" = false := by
      rw [hml]
      decide
    have hth := Rax.shouldRetry_false (Rax.keyProtectRax r d) "POST" s rfl (Or.inl hpost)
    rw [Rax.attemptsFor, Rax.attemptsGo_of_threshold _ _ _ _ hth _ 0 (by omega)]

/-- Witness for the amended C4: with 2 retries configured, a GET
endpoint always answering 503 gets 3 attempts from the KeyProtect
client while a POST one gets a single attempt. -/
theorem retry_bound_per_client_witness :
    Rax.attemptsFor (Rax.keyProtectRax 2 100) "GET" ⟨some 503⟩ = 2 + 1 ∧
    Rax.attemptsFor (Rax.keyProtectRax 2 100) "POST" ⟨some 503⟩ = 1 ∧
    Rax.attemptsFor Rax.appIdRax "POST" ⟨some 503⟩ = 1 + 1 :=
  ⟨(retry_bound_per_client 2 100 503 "GET" (by decide) (by decide)).2.2.1 (by decide),
   (retry_bound_per_client 2 100 503 "GET" (by decide) (by decide)).2.2.2.2,
   (retry_bound_per_client 2 100 503 "POST" (by decide) (by decide)).1 (by decide)⟩

namespace KeyProtect

/-- Behaviour of deleteKey when the config is complete, the token is
granted and the remote delete succeeds. -/
lemma deleteKeyRun_ok (cfg : KeyProtectConfig) (env : KPEnv) (store : List KeyRecord)
    (kid : String) (hval : validateConfig cfg = none) (htok : env.tokenResult = .ok ())
    (hdel : env.deleteOk = true) :
    deleteKeyRun cfg env store kid =
      (.ok (), [.iamToken, .deleteKey kid], store.filter (fun k => !(k.id == kid))) := by
  unfold deleteKeyRun
  rw [hval, htok]
  simp [hdel]

/-- Defining equation of the scan on the empty list. -/
lemma scanLoop_nil (cfg : KeyProtectConfig) (env : KPEnv) (n cur : String)
    (date : Nat) (store : List KeyRecord) :
    scanLoop cfg env n [] cur date store = (.ok cur, [], store) := rfl

/-- Defining equation of the scan on a cons cell. -/
lemma scanLoop_cons (cfg : KeyProtectConfig) (env : KPEnv) (n : String)
    (k : KeyRecord) (rest : List KeyRecord) (cur : String) (date : Nat)
    (store : List KeyRecord) :
    scanLoop cfg env n (k :: rest) cur date store =
      if k.name = n ∧ date < k.creationDate then
        if cur = "" then scanLoop cfg env n rest k.id k.creationDate store
        else
          match deleteKeyRun cfg env store cur with
          | (.error e, tr, store1) => (.error e, tr, store1)
          | (.ok _, tr, store1) =>
            let r := scanLoop cfg env n rest k.id k.creationDate store1
            (r.1, tr ++ r.2.1, r.2.2)
      else scanLoop cfg env n rest cur date store := rfl

end KeyProtect

namespace KeyProtect

/-- When the listed records with the search name appear in strictly
increasing creation-date order (each strictly after the running
maximum), the scan deletes exactly every superseded running maximum
(`deadIds`) and ends tracking the last record (`lastId`). -/
lemma scanLoop_strictly_increasing (cfg : KeyProtectConfig) (env : KPEnv) (n : String)
    (hval : validateConfig cfg = none) (htok : env.tokenResult = .ok ())
    (hdel : env.deleteOk = true) :
    ∀ (l : List KeyRecord) (cur : String) (curDate : Nat) (store : List KeyRecord),
      (∀ k ∈ l, k.name = n) →
      List.Chain' (· < ·) (curDate :: l.map (fun k => k.creationDate)) →
      ∃ tr, scanLoop cfg env n l cur curDate store =
        (.ok (lastId cur l), tr,
          store.filter (fun k => !decide (k.id ∈ deadIds cur l))) := by
  intro l
  induction l with
  | nil =>
    intro cur curDate store _ _
    refine ⟨[], ?_⟩
    rw [scanLoop_nil]
    simp [lastId, deadIds]
  | cons k rest ih =>
    intro cur curDate store hnames hchain
    have hname : k.name = n := hnames k (by simp)
    rw [List.map_cons, List.chain'_cons] at hchain
    obtain ⟨hlt, hchain2⟩ := hchain
    have hnames2 : ∀ x ∈ rest, x.name = n := fun x hx => hnames x (by simp [hx])
    rw [scanLoop_cons, if_pos ⟨hname, hlt⟩]
    by_cases hcur : cur = ""
    · rw [if_pos hcur]
      obtain ⟨tr, htr⟩ := ih k.id k.creationDate store hnames2 hchain2
      refine ⟨tr, ?_⟩
      rw [htr]
      have hdead : deadIds cur (k :: rest) = deadIds k.id rest := by
        simp [deadIds, hcur]
      rw [hdead]
      rfl
    · rw [if_neg hcur, deleteKeyRun_ok cfg env store cur hval htok hdel]
      obtain ⟨tr, htr⟩ :=
        ih k.id k.creationDate (store.filter (fun x => !(x.id == cur))) hnames2 hchain2
      refine ⟨[.iamToken, .deleteKey cur] ++ tr, ?_⟩
      simp only [htr]
      have hdead : deadIds cur (k :: rest) = cur :: deadIds k.id rest := by
        simp [deadIds, hcur]
      rw [hdead]
      have hfilters :
          (store.filter (fun x => !(x.id == cur))).filter
              (fun x => !decide (x.id ∈ deadIds k.id rest))
            = store.filter (fun x => !decide (x.id ∈ cur :: deadIds k.id rest)) := by
        rw [List.filter_filter]
        refine List.filter_congr ?_
        intro x _
        by_cases hxc : x.id = cur <;> simp [hxc]
      rw [hfilters]
      rfl

/-- A non-empty starting id ends up among the deleted ids or as the
final tracked id. -/
lemma cur_mem_dead_or_last : ∀ (l : List KeyRecord) (cur : String), cur ≠ "" →
    cur ∈ deadIds cur l ∨ cur = lastId cur l := by
  intro l
  induction l with
  | nil =>
    intro cur _
    right
    rfl
  | cons k rest _ =>
    intro cur hcur
    left
    simp [deadIds, hcur]

/-- Every listed record's id (ids being non-empty) is either deleted by
the scan or is the final tracked id. -/
lemma mem_dead_or_last : ∀ (l : List KeyRecord) (cur : String),
    (∀ k ∈ l, k.id ≠ "") → ∀ k ∈ l, k.id ∈ deadIds cur l ∨ k.id = lastId cur l := by
  intro l
  induction l with
  | nil =>
    intro cur _ k hk
    cases hk
  | cons k0 rest ih =>
    intro cur hids k hk
    have hrest : ∀ x ∈ rest, x.id ≠ "" := fun x hx => hids x (by simp [hx])
    have hsub : deadIds k0.id rest ⊆ deadIds cur (k0 :: rest) := by
      intro a ha
      simp [deadIds]
      right
      exact ha
    have hlast : lastId cur (k0 :: rest) = lastId k0.id rest := rfl
    rcases List.mem_cons.mp hk with hk0 | hkr
    · subst hk0
      rcases cur_mem_dead_or_last rest k.id (hids k (by simp)) with h | h
      · exact Or.inl (hsub h)
      · rw [hlast]
        exact Or.inr h
    · rcases ih k0.id hrest k hkr with h | h
      · exact Or.inl (hsub h)
      · rw [hlast]
        exact Or.inr h

/-- The final tracked id is the starting id or the id of some listed
record. -/
lemma lastId_cases : ∀ (l : List KeyRecord) (cur : String),
    lastId cur l = cur ∨ ∃ k ∈ l, lastId cur l = k.id := by
  intro l
  induction l with
  | nil =>
    intro cur
    exact Or.inl rfl
  | cons k rest ih =>
    intro cur
    right
    rcases ih k.id with h | ⟨x, hx, hxe⟩
    · exact ⟨k, by simp, h⟩
    · exact ⟨x, by simp [hx], hxe⟩

end KeyProtect

namespace KeyProtect

/-- Behaviour of getKeysByName when the config is complete and the
listing succeeds: the name filter over the remote store, one list
request. -/
lemma getKeysByName_ok (cfg : KeyProtectConfig) (env : KPEnv) (store : List KeyRecord)
    (n : String) (hval : validateConfig cfg = none) (hlist : env.listOk = true) :
    getKeysByName cfg env store true n
      = (.ok (store.filter (fun k => k.name == n)), [.listKeys]) := by
  unfold getKeysByName getAllKeys getAllKeysHelper
  rw [hval]
  simp [hlist]

/-- getNewestKeyIDByName under a complete config, granted token,
successful listing and deletes, when the records carrying the searched
name are listed in strictly increasing creation-date order: it deletes
exactly the superseded running maxima and returns the last record's
id. -/
lemma getNewestKeyIDByName_inc (cfg : KeyProtectConfig) (env : KPEnv)
    (store : List KeyRecord) (n : String)
    (hval : validateConfig cfg = none) (htok : env.tokenResult = .ok ())
    (hdel : env.deleteOk = true) (hlist : env.listOk = true)
    (hchain : List.Chain' (· < ·)
      (0 :: (store.filter (fun k => k.name == n)).map (fun k => k.creationDate))) :
    ∃ tr, getNewestKeyIDByName cfg env store true n =
      (.ok (lastId "" (store.filter (fun k => k.name == n))), tr,
        store.filter
          (fun k => !decide (k.id ∈ deadIds "" (store.filter (fun k => k.name == n))))) := by
  have hnames : ∀ k ∈ store.filter (fun k => k.name == n), k.name = n := by
    intro k hk
    simpa using (List.mem_filter.mp hk).2
  obtain ⟨tr, htr⟩ := scanLoop_strictly_increasing cfg env n hval htok hdel
    (store.filter (fun k => k.name == n)) "" 0 store hnames hchain
  refine ⟨.listKeys :: tr, ?_⟩
  unfold getNewestKeyIDByName
  rw [getKeysByName_ok cfg env store n hval hlist]
  simp [htr]

/-- createKey after its scan phase: given the outcome of
getNewestKeyIDByName, the remaining behaviour (delete the survivor if
any, then create). -/
lemma createKeyRun_eq (cfg : KeyProtectConfig) (env : KPEnv) (store : List KeyRecord)
    (keyName keyPayload surv : String) (tr0 : List KPEvent) (scanStore : List KeyRecord)
    (hval : validateConfig cfg = none) (hname : ¬keyName = "") (hpay : ¬keyPayload = "")
    (htok : env.tokenResult = .ok ())
    (hscan : getNewestKeyIDByName cfg env store true keyName = (.ok surv, tr0, scanStore)) :
    createKeyRun cfg env store keyName keyPayload =
      (match (if surv = "" then ((Except.ok () : Except KPError Unit), ([] : List KPEvent), scanStore)
              else deleteKeyRun cfg env scanStore surv) with
       | (.error e, tr2, store2) =>
         (.error (.wrapped "createKey" e), .iamToken :: (tr0 ++ tr2), store2)
       | (.ok _, tr2, store2) =>
         if env.createOk then
           (.ok env.createdId,
             .iamToken :: (tr0 ++ tr2 ++ [.createKey keyName (base64Encode (utf8Bytes keyPayload))]),
             store2 ++ [⟨env.createdId, keyName, env.createdDate, base64Encode (utf8Bytes keyPayload)⟩])
         else
           (.error (.wrapped "createKey" (.remote "create failed")),
             .iamToken :: (tr0 ++ tr2 ++ [.createKey keyName (base64Encode (utf8Bytes keyPayload))]),
             store2)) := by
  unfold createKeyRun
  rw [hval, if_neg hname, if_neg hpay, htok, hscan]

end KeyProtect

/-- Counterexample for C2: two records named K with the same creation
timestamp, listed as id a then id b.  The scan keeps the EARLIER
listed record a (returning its id) and deletes nothing (the trace has
no delete request and the remote store is unchanged), contradicting
the claim that the later-listed record is kept and the earlier one
deleted. -/
theorem tiebreak_counterexample :
    KeyProtect.getNewestKeyIDByName
        { url := "u", instanceID := "g", apikey := "a",
          retries := 1, retryDelay := 1, timeout := 1 }
        { tokenResult := .ok (), listOk := true, getOk := true, deleteOk := true,
          createOk := true, getPayload := "", createdId := "new", createdDate := 9 }
        [⟨"a", "K", 5, "x"⟩, ⟨"b", "K", 5, "y"⟩] true "K"
      = (.ok "a", [.listKeys], [⟨"a", "K", 5, "x"⟩, ⟨"b", "K", 5, "y"⟩]) ∧
    ("a" : String) ≠ "b" := by
  refine ⟨by decide, by decide⟩

/-- C2 (amended): when two listed records share a name and carry
exactly the same creation timestamp, the strict isBefore comparison
skips the later-listed record: the scan keeps the earlier-listed
record as the tracked newest (returning its id) and deletes neither
record. -/
theorem tiebreak_keeps_earlier (cfg : KeyProtect.KeyProtectConfig)
    (env : KeyProtect.KPEnv) (r1 r2 : KeyProtect.KeyRecord) (n : String)
    (hval : KeyProtect.validateConfig cfg = none) (hlist : env.listOk = true)
    (hn1 : r1.name = n) (hn2 : r2.name = n)
    (heq : r1.creationDate = r2.creationDate) (hpos : 0 < r1.creationDate) :
    KeyProtect.getNewestKeyIDByName cfg env [r1, r2] true n
      = (.ok r1.id, [.listKeys], [r1, r2]) := by
  have hfilter : ([r1, r2] : List KeyProtect.KeyRecord).filter (fun k => k.name == n)
      = [r1, r2] := by
    simp [hn1, hn2]
  have hkeys := KeyProtect.getKeysByName_ok cfg env [r1, r2] n hval hlist
  rw [hfilter] at hkeys
  have hneg : ¬(r2.name = n ∧ r1.creationDate < r2.creationDate) := by
    intro h
    rw [heq] at h
    exact lt_irrefl _ h.2
  have hscan : KeyProtect.scanLoop cfg env n [r1, r2] "" 0 [r1, r2]
      = (.ok r1.id, [], [r1, r2]) := by
    rw [KeyProtect.scanLoop_cons, if_pos ⟨hn1, hpos⟩, if_pos rfl,
      KeyProtect.scanLoop_cons, if_neg hneg, KeyProtect.scanLoop_nil]
  unfold KeyProtect.getNewestKeyIDByName
  rw [hkeys]
  simp [hscan]

/-- Witness for the amended C2 at two concrete equal-timestamp
records. -/
theorem tiebreak_keeps_earlier_witness :
    KeyProtect.getNewestKeyIDByName
        { url := "u", instanceID := "g", apikey := "a",
          retries := 1, retryDelay := 1, timeout := 1 }
        { tokenResult := .ok (), listOk := true, getOk := true, deleteOk := true,
          createOk := true, getPayload := "", createdId := "new", createdDate := 9 }
        [⟨"first", "K", 7, "x"⟩, ⟨"second", "K", 7, "y"⟩] true "K"
      = (.ok "first", [.listKeys], [⟨"first", "K", 7, "x"⟩, ⟨"second", "K", 7, "y"⟩]) :=
  tiebreak_keeps_earlier _ _ ⟨"first", "K", 7, "x"⟩ ⟨"second", "K", 7, "y"⟩ "K"
    (by decide) (by decide) (by decide) (by decide) (by decide) (by decide)

/-- Counterexample for C1: the remote lists the two K records newest
first (timestamps 2 then 1).  The scan keeps the first record as
running maximum and skips the older second one without deleting it, so
after a successful createKey the old record with id b still exists
alongside the new record: two records named K remain, contradicting
the claimed at-most-one invariant. -/
theorem createKey_leaves_duplicate :
    (KeyProtect.createKeyRun
        { url := "u", instanceID := "g", apikey := "a",
          retries := 1, retryDelay := 1, timeout := 1 }
        { tokenResult := .ok (), listOk := true, getOk := true, deleteOk := true,
          createOk := true, getPayload := "", createdId := "new", createdDate := 9 }
        [⟨"a", "K", 2, "x"⟩, ⟨"b", "K", 1, "y"⟩] "K" "p").1 = .ok "new" ∧
    ¬(((KeyProtect.createKeyRun
        { url := "u", instanceID := "g", apikey := "a",
          retries := 1, retryDelay := 1, timeout := 1 }
        { tokenResult := .ok (), listOk := true, getOk := true, deleteOk := true,
          createOk := true, getPayload := "", createdId := "new", createdDate := 9 }
        [⟨"a", "K", 2, "x"⟩, ⟨"b", "K", 1, "y"⟩] "K" "p").2.2.filter
          (fun k => k.name == "K")).length ≤ 1) := by
  refine ⟨by decide, by decide⟩

/-- C1 (amended): when the records carrying the given name are listed
in strictly increasing creation-timestamp order (each strictly newer
than the running maximum, timestamps positive, ids non-empty), a
successful createKey deletes every previously existing record under
that name (the superseded running maxima during the scan, then the
surviving newest one), creates exactly one record with that name
carrying the base64-encoded payload, and returns the new record's id,
so exactly one record with that name remains. -/
theorem createKey_enforces_one_per_name (cfg : KeyProtect.KeyProtectConfig)
    (env : KeyProtect.KPEnv) (store : List KeyProtect.KeyRecord)
    (keyName keyPayload : String)
    (hval : KeyProtect.validateConfig cfg = none)
    (hname : keyName ≠ "") (hpay : keyPayload ≠ "")
    (htok : env.tokenResult = .ok ()) (hlist : env.listOk = true)
    (hdel : env.deleteOk = true) (hcr : env.createOk = true)
    (hids : ∀ k ∈ store.filter (fun k => k.name == keyName), k.id ≠ "")
    (hchain : List.Chain' (· < ·)
      (0 :: (store.filter (fun k => k.name == keyName)).map (fun k => k.creationDate))) :
    ∃ tr store1,
      KeyProtect.createKeyRun cfg env store keyName keyPayload
        = (.ok env.createdId, tr, store1) ∧
      store1.filter (fun k => k.name == keyName)
        = [⟨env.createdId, keyName, env.createdDate,
            KeyProtect.base64Encode (KeyProtect.utf8Bytes keyPayload)⟩] := by
  obtain ⟨tr0, hscan⟩ :=
    KeyProtect.getNewestKeyIDByName_inc cfg env store keyName hval htok hdel hlist hchain
  have h1 := KeyProtect.createKeyRun_eq cfg env store keyName keyPayload
    (KeyProtect.lastId "" (store.filter (fun k => k.name == keyName))) tr0
    (store.filter (fun k =>
      !decide (k.id ∈ KeyProtect.deadIds "" (store.filter (fun k => k.name == keyName)))))
    hval hname hpay htok hscan
  have hnew : (([⟨env.createdId, keyName, env.createdDate,
      KeyProtect.base64Encode (KeyProtect.utf8Bytes keyPayload)⟩] :
        List KeyProtect.KeyRecord).filter (fun k => k.name == keyName))
      = [⟨env.createdId, keyName, env.createdDate,
          KeyProtect.base64Encode (KeyProtect.utf8Bytes keyPayload)⟩] := by
    simp
  by_cases hsurv : KeyProtect.lastId "" (store.filter (fun k => k.name == keyName)) = ""
  · rw [if_pos hsurv, hcr] at h1
    have hempty : ((store.filter (fun k =>
        !decide (k.id ∈ KeyProtect.deadIds "" (store.filter (fun k => k.name == keyName))))).filter
          (fun k => k.name == keyName)) = [] := by
      rw [List.filter_eq_nil_iff]
      intro x hx hbname
      obtain ⟨hxs, hxd⟩ := List.mem_filter.mp hx
      have hxl : x ∈ store.filter (fun k => k.name == keyName) :=
        List.mem_filter.mpr ⟨hxs, hbname⟩
      rcases KeyProtect.mem_dead_or_last _ "" hids x hxl with hd | hlast
      · simp at hxd
        exact hxd hd
      · exact (hids x hxl) (hlast.trans hsurv)
    refine ⟨_, _, h1, ?_⟩
    rw [List.filter_append, hempty, hnew]
    rfl
  · have hdelrun := KeyProtect.deleteKeyRun_ok cfg env
      (store.filter (fun k =>
        !decide (k.id ∈ KeyProtect.deadIds "" (store.filter (fun k => k.name == keyName)))))
      (KeyProtect.lastId "" (store.filter (fun k => k.name == keyName))) hval htok hdel
    rw [if_neg hsurv, hdelrun, hcr] at h1
    have hempty : (((store.filter (fun k =>
        !decide (k.id ∈ KeyProtect.deadIds "" (store.filter (fun k => k.name == keyName))))).filter
          (fun x =>
            !(x.id == KeyProtect.lastId "" (store.filter (fun k => k.name == keyName))))).filter
          (fun k => k.name == keyName)) = [] := by
      rw [List.filter_eq_nil_iff]
      intro x hx hbname
      obtain ⟨hx2, hxsurv⟩ := List.mem_filter.mp hx
      obtain ⟨hxs, hxd⟩ := List.mem_filter.mp hx2
      have hxl : x ∈ store.filter (fun k => k.name == keyName) :=
        List.mem_filter.mpr ⟨hxs, hbname⟩
      rcases KeyProtect.mem_dead_or_last _ "" hids x hxl with hd | hlast
      · simp at hxd
        exact hxd hd
      · simp at hxsurv
        exact hxsurv hlast
    refine ⟨_, _, h1, ?_⟩
    rw [List.filter_append, hempty, hnew]
    rfl

/-- Witness for the amended C1 on a store listed oldest first. -/
theorem createKey_enforces_one_per_name_witness :
    ∃ tr store1,
      KeyProtect.createKeyRun
          { url := "u", instanceID := "g", apikey := "a",
            retries := 1, retryDelay := 1, timeout := 1 }
          { tokenResult := .ok (), listOk := true, getOk := true, deleteOk := true,
            createOk := true, getPayload := "", createdId := "new", createdDate := 9 }
          [⟨"a", "K", 1, "x"⟩, ⟨"b", "K", 2, "y"⟩, ⟨"c", "J", 5, "z"⟩] "K" "p"
        = (.ok "new", tr, store1) ∧
      store1.filter (fun k => k.name == "K")
        = [⟨"new", "K", 9, KeyProtect.base64Encode (KeyProtect.utf8Bytes "p")⟩] :=
  createKey_enforces_one_per_name _ _
    [⟨"a", "K", 1, "x"⟩, ⟨"b", "K", 2, "y"⟩, ⟨"c", "J", 5, "z"⟩] "K" "p"
    (by decide) (by decide) (by decide) (by decide) (by decide) (by decide) (by decide)
    (by decide)
    (by
      have h : List.map (fun k => k.creationDate)
          (List.filter (fun k => k.name == "K")
            ([⟨"a", "K", 1, "x"⟩, ⟨"b", "K", 2, "y"⟩, ⟨"c", "J", 5, "z"⟩] :
              List KeyProtect.KeyRecord)) = [1, 2] := by decide
      rw [h]
      simp)

/-- Counterexample for C5: with the url missing from the config,
getAllKeys invoked without a client first acquires an IAM token and
then has the validation error swallowed by getAllKeysHelper, returning
an empty list: the operation neither fails with an error naming the
missing field nor avoids token acquisition. -/
theorem validation_counterexample :
    KeyProtect.getAllKeys
        { url := "", instanceID := "g", apikey := "a",
          retries := 1, retryDelay := 1, timeout := 1 }
        { tokenResult := .ok (), listOk := true, getOk := true, deleteOk := true,
          createOk := true, getPayload := "", createdId := "new", createdDate := 9 }
        [] false
      = (.ok [], [.iamToken]) := by
  decide

/-- C5 (amended): validateConfig reports the first missing field in
the source's check order, and every KeyProtect operation runs it
before issuing any KeyProtect service request; however the failure
surfaces asynchronously and only on mutation paths: deleteKey and
createKey fail with a wrapped error naming the first missing field
before any token acquisition, the read operations (getKeyByID,
getNewestKeyByName, getAllKeys with a client) swallow the error and
return empty results without any request, and getAllKeys without a
client acquires an IAM token before validation runs and still returns
an empty list. -/
theorem validation_behaviour (cfg : KeyProtect.KeyProtectConfig)
    (env : KeyProtect.KPEnv) (store : List KeyProtect.KeyRecord)
    (kid nm p f : String)
    (hf : KeyProtect.validateConfig cfg = some f) (htok : env.tokenResult = .ok ()) :
    KeyProtect.deleteKeyRun cfg env store kid
      = (.error (.wrapped "deleteKey" (.configMissing f)), [], store) ∧
    KeyProtect.createKeyRun cfg env store nm p
      = (.error (.wrapped "createKey" (.configMissing f)), [], store) ∧
    KeyProtect.getKeyByIDRun cfg env kid = (.ok "", []) ∧
    KeyProtect.getNewestKeyByNameRun cfg env store nm = (.ok "", [], store) ∧
    KeyProtect.getAllKeys cfg env store true = (.ok [], []) ∧
    KeyProtect.getAllKeys cfg env store false = (.ok [], [.iamToken]) := by
  refine ⟨?_, ?_, ?_, ?_, ?_, ?_⟩
  · unfold KeyProtect.deleteKeyRun
    rw [hf]
  · unfold KeyProtect.createKeyRun
    rw [hf]
  · unfold KeyProtect.getKeyByIDRun
    rw [hf]
  · unfold KeyProtect.getNewestKeyByNameRun
    rw [hf]
  · unfold KeyProtect.getAllKeys KeyProtect.getAllKeysHelper
    rw [hf]
    simp
  · unfold KeyProtect.getAllKeys KeyProtect.getAllKeysHelper
    rw [hf, htok]
    simp

/-- Witness for the amended C5 with the url field missing. -/
theorem validation_behaviour_witness :
    KeyProtect.deleteKeyRun
        { url := "", instanceID := "g", apikey := "a",
          retries := 1, retryDelay := 1, timeout := 1 }
        { tokenResult := .ok (), listOk := true, getOk := true, deleteOk := true,
          createOk := true, getPayload := "", createdId := "new", createdDate := 9 }
        [] "kid"
      = (.error (.wrapped "deleteKey" (.configMissing "KEYPROTECT_URL")), [], []) ∧
    KeyProtect.getKeyByIDRun
        { url := "", instanceID := "g", apikey := "a",
          retries := 1, retryDelay := 1, timeout := 1 }
        { tokenResult := .ok (), listOk := true, getOk := true, deleteOk := true,
          createOk := true, getPayload := "", createdId := "new", createdDate := 9 }
        "kid"
      = (.ok "", []) :=
  ⟨(validation_behaviour _ _ [] "kid" "n" "p" "KEYPROTECT_URL" (by decide) (by decide)).1,
   (validation_behaviour _ _ [] "kid" "n" "p" "KEYPROTECT_URL" (by decide) (by decide)).2.2.1⟩

/-- Counterexample for C6: a failure of the token acquisition during a
getAllKeys call made without a client is raised to the caller (the
await of the Credential Provider sits outside every try/catch in
getAllKeys), so this read/list failure does not degrade to an empty
result. -/
theorem read_path_raises_counterexample :
    KeyProtect.getAllKeys
        { url := "u", instanceID := "g", apikey := "a",
          retries := 1, retryDelay := 1, timeout := 1 }
        { tokenResult := .error "getaddrinfo ENOTFOUND iam", listOk := true,
          getOk := true, deleteOk := true, createOk := true, getPayload := "",
          createdId := "new", createdDate := 9 }
        [] false
      = (.error (.tokenFailure "getaddrinfo ENOTFOUND iam"), [.iamToken]) := by
  decide

/-- C6 (amended): the read/get/ping operations never raise: getAllKeys
with a client, getKeyByID and getNewestKeyByName always return an ok
result, degrading every failure to an empty list or empty string, and
pingCloudant returns false (never raising) when the session request
fails; the one exception is getAllKeys invoked without a client, which
propagates a token-acquisition failure to the caller. -/
theorem read_paths_degrade :
    (∀ (cfg : KeyProtect.KeyProtectConfig) (env : KeyProtect.KPEnv)
        (store : List KeyProtect.KeyRecord),
      ∃ v tr, KeyProtect.getAllKeys cfg env store true = (.ok v, tr)) ∧
    (∀ (cfg : KeyProtect.KeyProtectConfig) (env : KeyProtect.KPEnv) (kid : String),
      ∃ v tr, KeyProtect.getKeyByIDRun cfg env kid = (.ok v, tr)) ∧
    (∀ (cfg : KeyProtect.KeyProtectConfig) (env : KeyProtect.KPEnv) (kid : String),
      env.getOk = false → (KeyProtect.getKeyByIDRun cfg env kid).1 = .ok "") ∧
    (∀ (cfg : KeyProtect.KeyProtectConfig) (env : KeyProtect.KPEnv)
        (store : List KeyProtect.KeyRecord) (nm : String),
      ∃ v tr store1,
        KeyProtect.getNewestKeyByNameRun cfg env store nm = (.ok v, tr, store1)) ∧
    (∀ r : Except String Unit, ∃ b, Cloudant.pingCloudantRun r = .ok b) ∧
    (∀ m : String, Cloudant.pingCloudantRun (.error m) = .ok false) ∧
    (∀ (cfg : KeyProtect.KeyProtectConfig) (env : KeyProtect.KPEnv)
        (store : List KeyProtect.KeyRecord) (m : String),
      env.tokenResult = .error m →
        KeyProtect.getAllKeys cfg env store false
          = (.error (.tokenFailure m), [.iamToken])) := by
  refine ⟨?_, ?_, ?_, ?_, ?_, ?_, ?_⟩
  · intro cfg env store
    unfold KeyProtect.getAllKeys KeyProtect.getAllKeysHelper
    cases h : KeyProtect.validateConfig cfg with
    | some f => exact ⟨[], [], rfl⟩
    | none =>
      cases hl : env.listOk with
      | true => exact ⟨store, [.listKeys], rfl⟩
      | false => exact ⟨[], [.listKeys], rfl⟩
  · intro cfg env kid
    unfold KeyProtect.getKeyByIDRun
    cases h : KeyProtect.validateConfig cfg with
    | some f => exact ⟨"", [], rfl⟩
    | none =>
      cases ht : env.tokenResult with
      | error m => exact ⟨"", [.iamToken], rfl⟩
      | ok u =>
        cases u
        cases hg : env.getOk with
        | true => exact ⟨env.getPayload, [.iamToken, .getKey kid], rfl⟩
        | false => exact ⟨"", [.iamToken, .getKey kid], rfl⟩
  · intro cfg env kid hg
    unfold KeyProtect.getKeyByIDRun
    cases h : KeyProtect.validateConfig cfg with
    | some f => rfl
    | none =>
      cases ht : env.tokenResult with
      | error m => rfl
      | ok u =>
        cases u
        simp [hg]
  · intro cfg env store nm
    unfold KeyProtect.getNewestKeyByNameRun
    cases h : KeyProtect.validateConfig cfg with
    | some f => exact ⟨"", [], store, rfl⟩
    | none =>
      cases ht : env.tokenResult with
      | error m => exact ⟨"", [.iamToken], store, rfl⟩
      | ok u =>
        cases u
        rcases hres : KeyProtect.getNewestKeyIDByName cfg env store true nm with ⟨r1, tr1, st1⟩
        cases r1 with
        | error e => exact ⟨"", .iamToken :: tr1, st1, rfl⟩
        | ok kid =>
          by_cases hk : kid = ""
          · exact ⟨"", .iamToken :: tr1, st1, by simp [hk]⟩
          · cases hg : env.getOk with
            | true =>
              exact ⟨env.getPayload, .iamToken :: (tr1 ++ [.getKey kid]), st1,
                by simp [hk]⟩
            | false =>
              exact ⟨"", .iamToken :: (tr1 ++ [.getKey kid]), st1, by simp [hk]⟩
  · intro r
    cases r with
    | ok u => exact ⟨true, rfl⟩
    | error m => exact ⟨false, rfl⟩
  · intro m
    rfl
  · intro cfg env store m ht
    unfold KeyProtect.getAllKeys
    rw [ht]
    simp

/-- Witness for the amended C6: a failed get-key request degrades to
the empty string and a failed Cloudant ping degrades to false. -/
theorem read_paths_degrade_witness :
    (KeyProtect.getKeyByIDRun
        { url := "u", instanceID := "g", apikey := "a",
          retries := 1, retryDelay := 1, timeout := 1 }
        { tokenResult := .ok (), listOk := true, getOk := false, deleteOk := true,
          createOk := true, getPayload := "", createdId := "new", createdDate := 9 }
        "kid").1 = .ok "" ∧
    Cloudant.pingCloudantRun (.error "socket hang up") = .ok false :=
  ⟨read_paths_degrade.2.2.1 _ _ "kid" rfl,
   read_paths_degrade.2.2.2.2.2.1 "socket hang up"⟩

/-- C7: mutation paths never swallow failures: deleteKey returns ok
exactly when the config is complete, the token was granted and the
remote delete succeeded (every failure is thrown, wrapped), and a
createKey whose create request fails always throws. -/
theorem mutation_failures_propagate :
    (∀ (cfg : KeyProtect.KeyProtectConfig) (env : KeyProtect.KPEnv)
        (store : List KeyProtect.KeyRecord) (kid : String),
      (KeyProtect.deleteKeyRun cfg env store kid).1 = .ok () ↔
        (KeyProtect.validateConfig cfg = none ∧ env.tokenResult = .ok () ∧
          env.deleteOk = true)) ∧
    (∀ (cfg : KeyProtect.KeyProtectConfig) (env : KeyProtect.KPEnv)
        (store : List KeyProtect.KeyRecord) (nm p : String),
      env.createOk = false →
        ∃ e, (KeyProtect.createKeyRun cfg env store nm p).1 = .error e) := by
  constructor
  · intro cfg env store kid
    unfold KeyProtect.deleteKeyRun
    cases h : KeyProtect.validateConfig cfg with
    | some f => simp
    | none =>
      cases ht : env.tokenResult with
      | error m => simp
      | ok u =>
        cases u
        cases hd : env.deleteOk with
        | true => simp
        | false => simp
  · intro cfg env store nm p hcr
    unfold KeyProtect.createKeyRun
    cases h : KeyProtect.validateConfig cfg with
    | some f => exact ⟨_, rfl⟩
    | none =>
      by_cases hn : nm = ""
      · exact ⟨.wrapped "createKey" .emptyKeyName, by simp [hn]⟩
      · by_cases hp : p = ""
        · exact ⟨.wrapped "createKey" .emptyKeyPayload, by simp [hn, hp]⟩
        · cases ht : env.tokenResult with
          | error m => exact ⟨.wrapped "createKey" (.tokenFailure m), by simp [hn, hp]⟩
          | ok u =>
            cases u
            rcases hres : KeyProtect.getNewestKeyIDByName cfg env store true nm
              with ⟨r1, tr1, st1⟩
            cases r1 with
            | error e => exact ⟨.wrapped "createKey" e, by simp [hn, hp]⟩
            | ok kid =>
              by_cases hk : kid = ""
              · exact ⟨.wrapped "createKey" (.remote "create failed"),
                  by simp [hn, hp, hk, hcr]⟩
              · rcases hdel2 : KeyProtect.deleteKeyRun cfg env st1 kid with ⟨r2, tr2, st2⟩
                cases r2 with
                | error e2 => exact ⟨.wrapped "createKey" e2, by simp [hn, hp, hk, hdel2]⟩
                | ok u2 =>
                  cases u2
                  exact ⟨.wrapped "createKey" (.remote "create failed"),
                    by simp [hn, hp, hk, hdel2, hcr]⟩

/-- Witness for C7: a granted path returns ok, and a failing create is
thrown. -/
theorem mutation_failures_propagate_witness :
    (KeyProtect.deleteKeyRun
        { url := "u", instanceID := "g", apikey := "a",
          retries := 1, retryDelay := 1, timeout := 1 }
        { tokenResult := .ok (), listOk := true, getOk := true, deleteOk := true,
          createOk := true, getPayload := "", createdId := "new", createdDate := 9 }
        [] "kid").1 = .ok () ∧
    ∃ e, (KeyProtect.createKeyRun
        { url := "u", instanceID := "g", apikey := "a",
          retries := 1, retryDelay := 1, timeout := 1 }
        { tokenResult := .ok (), listOk := true, getOk := true, deleteOk := true,
          createOk := false, getPayload := "", createdId := "new", createdDate := 9 }
        [] "K" "p").1 = .error e :=
  ⟨(mutation_failures_propagate.1 _ _ [] "kid").mpr ⟨rfl, rfl, rfl⟩,
   mutation_failures_propagate.2 _ _ [] "K" "p" rfl⟩

/-- C8: when login with the supplied credentials succeeds,
existUserCheck performs no mutation at all: its trace is exactly the
single login call, with no management token, no role listing, no
account creation and no role or attribute update; a second run after
a successful first run behaves identically (same single-login
trace). -/
theorem login_success_no_mutation (cfg : AppID.AppIDConfig) (env : AppID.AppIdEnv)
    (u p : String) (hval : AppID.validateAppIDConfig cfg = none)
    (hlogin : env.firstLoginOk = true) :
    AppID.existUserCheckFunc cfg env u p = (none, [.login u p]) := by
  unfold AppID.existUserCheckFunc AppID.loginAppIDRun
  rw [hval, hlogin]
  rfl

/-- Witness for C8 at a concrete provisioned user. -/
theorem login_success_no_mutation_witness :
    AppID.existUserCheckFunc
        { url := "u", clientID := "c", tenantID := "t", secret := "s",
          apikey := "a", userName := "un", userTenantID := "ut" }
        { firstLoginOk := true, secondLoginOk := true, tokenOk := true,
          rolesResult := .ok ["r1"], createOk := true,
          usersResult := .ok [("a@b.com", "id1")], putRolesOk := true,
          putAttrsOk := true }
        "a@b.com" "pw"
      = (none, [.login "a@b.com" "pw"]) :=
  login_success_no_mutation _ _ "a@b.com" "pw" (by decide) (by decide)

/-- C9: for a fresh username (the initial login fails), the
provisioning calls are issued in exactly the order login(fail),
management token, list-roles, create-account, login-as-new-user,
list-users, update-roles, update-attributes; and a failure at any step
aborts every subsequent step while the mutations already applied stay
in place (the trace retains the earlier calls and the error is
returned, with no rollback call). -/
theorem provisioning_sequence (cfg : AppID.AppIDConfig) (env : AppID.AppIdEnv)
    (u p : String) (hval : AppID.validateAppIDConfig cfg = none)
    (hfresh : env.firstLoginOk = false) :
    (∀ roles users q, env.tokenOk = true → env.rolesResult = .ok roles →
      env.createOk = true → env.secondLoginOk = true → env.usersResult = .ok users →
      users.find? (fun e => e.1 == u) = some q →
      env.putRolesOk = true → env.putAttrsOk = true →
      AppID.existUserCheckFunc cfg env u p =
        (none, [.login u p, .iamToken, .getRoles, .createUser u, .login u p, .getUsers,
          .putRoles q.2, .putAttributes q.2])) ∧
    (env.tokenOk = false →
      AppID.existUserCheckFunc cfg env u p
        = (some .tokenFailed, [.login u p, .iamToken])) ∧
    (∀ m, env.tokenOk = true → env.rolesResult = .error m →
      AppID.existUserCheckFunc cfg env u p
        = (some (.remote m), [.login u p, .iamToken, .getRoles])) ∧
    (∀ roles, env.tokenOk = true → env.rolesResult = .ok roles → env.createOk = false →
      AppID.existUserCheckFunc cfg env u p
        = (some (.remote "create failed"),
            [.login u p, .iamToken, .getRoles, .createUser u])) ∧
    (∀ roles, env.tokenOk = true → env.rolesResult = .ok roles → env.createOk = true →
      env.secondLoginOk = false →
      AppID.existUserCheckFunc cfg env u p
        = (some (.loginFailed u),
            [.login u p, .iamToken, .getRoles, .createUser u, .login u p])) ∧
    (∀ roles users q, env.tokenOk = true → env.rolesResult = .ok roles →
      env.createOk = true → env.secondLoginOk = true → env.usersResult = .ok users →
      users.find? (fun e => e.1 == u) = some q → env.putRolesOk = false →
      AppID.existUserCheckFunc cfg env u p
        = (some (.remote "roles update failed"),
            [.login u p, .iamToken, .getRoles, .createUser u, .login u p, .getUsers,
              .putRoles q.2])) := by
  refine ⟨?_, ?_, ?_, ?_, ?_, ?_⟩
  · intro roles users q htk hro hcr hsl hus hfind hpr hpa
    unfold AppID.existUserCheckFunc AppID.loginAppIDRun
    simp [hval, hfresh, htk, hro, hcr, hsl, hus, hfind, hpr, hpa]
  · intro htk
    unfold AppID.existUserCheckFunc AppID.loginAppIDRun
    simp [hval, hfresh, htk]
  · intro m htk hro
    unfold AppID.existUserCheckFunc AppID.loginAppIDRun
    simp [hval, hfresh, htk, hro]
  · intro roles htk hro hcr
    unfold AppID.existUserCheckFunc AppID.loginAppIDRun
    simp [hval, hfresh, htk, hro, hcr]
  · intro roles htk hro hcr hsl
    unfold AppID.existUserCheckFunc AppID.loginAppIDRun
    simp [hval, hfresh, htk, hro, hcr, hsl]
  · intro roles users q htk hro hcr hsl hus hfind hpr
    unfold AppID.existUserCheckFunc AppID.loginAppIDRun
    simp [hval, hfresh, htk, hro, hcr, hsl, hus, hfind, hpr]

/-- Witness for C9: complete provisioning run for a fresh user. -/
theorem provisioning_sequence_witness :
    AppID.existUserCheckFunc
        { url := "u", clientID := "c", tenantID := "t", secret := "s",
          apikey := "a", userName := "un", userTenantID := "ut" }
        { firstLoginOk := false, secondLoginOk := true, tokenOk := true,
          rolesResult := .ok ["r1", "r2"], createOk := true,
          usersResult := .ok [("x@y.com", "id9"), ("a@b.com", "id1")],
          putRolesOk := true, putAttrsOk := true }
        "a@b.com" "pw"
      = (none, [.login "a@b.com" "pw", .iamToken, .getRoles, .createUser "a@b.com",
          .login "a@b.com" "pw", .getUsers, .putRoles "id1", .putAttributes "id1"]) :=
  (provisioning_sequence _ _ "a@b.com" "pw" (by decide) (by decide)).1
    ["r1", "r2"] [("x@y.com", "id9"), ("a@b.com", "id1")] ("a@b.com", "id1")
    rfl rfl rfl rfl rfl (by decide) rfl rfl

namespace Cloudant

/-- Reachability invariant of the module state: either no instance was
ever allocated (and the allocation counter is untouched), or the
single instance is the one allocated first (reference 0). -/
def SingletonInv (s : CloudantState) : Prop :=
  (s.instanceRef = none ∧ s.nextRef = 0) ∨ s.instanceRef = some 0

/-- Every reference returned over any run from a state satisfying the
invariant is 0, and the invariant is preserved. -/
lemma runOps_refs_zero : ∀ (ops : List CloudantOp) (s : CloudantState),
    SingletonInv s → ∀ x ∈ (runOps s ops).2, x = 0 := by
  intro ops
  induction ops with
  | nil =>
    intro s _ x hx
    simp [runOps] at hx
  | cons op rest ih =>
    intro s hs x hx
    rcases op with _ | conn
    · rcases hs with ⟨h1, h2⟩ | h1
      · have hrun : runOp s .getInst
            = ({ s with instanceRef := some s.nextRef, nextRef := s.nextRef + 1 },
               some s.nextRef) := by
          unfold runOp getInstance
          rw [h1]
        rw [runOps, hrun] at hx
        simp at hx
        rcases hx with hx | hx
        · rw [hx, h2]
        · exact ih _ (Or.inr (by simp [h2])) x hx
      · cases hc : s.cloudantInit with
        | true =>
          have hrun : runOp s .getInst = (s, some 0) := by
            unfold runOp getInstance
            rw [h1, hc]
            simp
          rw [runOps, hrun] at hx
          simp at hx
          rcases hx with hx | hx
          · exact hx
          · exact ih _ (Or.inr h1) x hx
        | false =>
          have hrun : runOp s .getInst = (s, none) := by
            unfold runOp getInstance
            rw [h1, hc]
            simp
          rw [runOps, hrun] at hx
          simp at hx
          exact ih _ (Or.inr h1) x hx
    · have hpre : (runOp s (.setup conn)).1.instanceRef = s.instanceRef ∧
          (runOp s (.setup conn)).1.nextRef = s.nextRef := by
        unfold runOp setupCloudant
        cases hc : s.cloudantInit with
        | true => simp
        | false =>
          cases hi : initCloudant conn with
          | ok u => simp [hi]
          | error e => simp [hi]
      have hnone : (runOp s (.setup conn)).2 = none := by
        unfold runOp setupCloudant
        cases hc : s.cloudantInit with
        | true => simp
        | false =>
          cases hi : initCloudant conn with
          | ok u => simp [hi]
          | error e => simp [hi]
      rw [runOps, hnone] at hx
      simp at hx
      refine ih _ ?_ x hx
      rcases hs with ⟨h1, h2⟩ | h1
      · exact Or.inl ⟨hpre.1.trans h1, hpre.2.trans h2⟩
      · exact Or.inr (hpre.1.trans h1)

end Cloudant

/-- C10: CloudantHelperLib.getInstance is a singleton with a trapdoor:
over any sequence of getInstance/setupCloudant calls starting from the
module's initial state, every getInstance call that returns yields the
same single instance (reference 0); and on any state where an instance
exists whose cloudant connection was never successfully initialized,
getInstance throws an object with status 500 instead of returning. -/
theorem getInstance_singleton_trapdoor :
    (∀ (ops : List Cloudant.CloudantOp) (x y : Nat),
      x ∈ (Cloudant.runOps Cloudant.initialCloudantState ops).2 →
      y ∈ (Cloudant.runOps Cloudant.initialCloudantState ops).2 → x = y) ∧
    (∀ (s : Cloudant.CloudantState) (r : Nat),
      s.instanceRef = some r → s.cloudantInit = false →
      Cloudant.getInstance s
        = .error { status := 500, message := Cloudant.cloudantNotInitMsg }) := by
  constructor
  · intro ops x y hx hy
    have hx0 := Cloudant.runOps_refs_zero ops _ (Or.inl ⟨rfl, rfl⟩) x hx
    have hy0 := Cloudant.runOps_refs_zero ops _ (Or.inl ⟨rfl, rfl⟩) y hy
    rw [hx0, hy0]
  · intro s r h1 h2
    unfold Cloudant.getInstance
    rw [h1, h2]
    simp

/-- Witness for C10: after the instance exists without an initialized
cloudant connection, getInstance throws the status-500 object; and a
run that allocates, initializes and fetches twice returns reference 0
both times. -/
theorem getInstance_singleton_trapdoor_witness :
    Cloudant.getInstance { nextRef := 1, instanceRef := some 0, cloudantInit := false }
      = .error { status := 500, message := Cloudant.cloudantNotInitMsg } ∧
    (0 : Nat) = 0 :=
  ⟨getInstance_singleton_trapdoor.2 ⟨1, some 0, false⟩ 0 rfl rfl,
   getInstance_singleton_trapdoor.1
     [.getInst, .setup (some ⟨"url", "acct", "key", "", "", ""⟩), .getInst]
     0 0 (by decide) (by decide)⟩
